import Mathlib

/-!
Verification development for the fundos_CVM repository.

This file gives a shallow embedding, in Lean 4, of the matching, scanning
and aggregation pipeline of src/cvm_core.py (and, where a claim touches it,
of the legacy single-archive pipeline of src/core.py), together with
theorems settling the frozen claims about that code.

Modelling conventions:
- Python strings are Lean String values; all character-class tests
  (upper case, digits, whitespace, word characters) are modelled at the
  ASCII level, which is the alphabet the program actually works over.
- Python sets are modelled as duplicate-free lists built with setInsert
  and setUnion; only membership and the final sorted rendering are ever
  observed, exactly as in the source.
- Python exceptions are modelled with Except String; a raised exception
  is an error value carrying the message.
- The pandas chunked parse and the csv reader are external parsers; they
  are modelled as abstract parse functions returning a Table (header and
  rows of cell strings) or raising.  The per-chunk loop of _scan_pandas
  is modelled as a single chunk: every chunk shares the header, so the
  accumulated set and flag over chunks equal those of one whole table.
- pandas renders a missing cell (NaN) as the string nan after astype(str);
  cell access in the pandas scanner therefore defaults to nan.
-/

/-! ### Python semantics helpers -/

/-- The whitespace characters of Python str.strip and of the regex class
backslash-s, restricted to ASCII. -/
def isPySpace (c : Char) : Bool :=
  c = ' ' || c = '\t' || c = '\n' || c = '\r' || c = '\x0b' || c = '\x0c'

/-- Python str.upper on ASCII text: uppercase every character. -/
def pyUpper (s : String) : String := ⟨s.data.map Char.toUpper⟩

/-- Strip leading and trailing Python whitespace from a character list. -/
def pyStripList (l : List Char) : List Char :=
  ((l.dropWhile isPySpace).reverse.dropWhile isPySpace).reverse

/-- Python str.strip with no argument. -/
def pyStrip (s : String) : String := ⟨pyStripList s.data⟩

/-- Python substring containment: needle in hay. -/
def strContains (hay needle : String) : Bool :=
  decide (needle.data <:+: hay.data)

/-- Python string comparison: lexicographic on code points. -/
def lexLe : List Char → List Char → Bool
  | [], _ => true
  | _ :: _, [] => false
  | a :: as, b :: bs =>
    if a.toNat < b.toNat then true
    else if b.toNat < a.toNat then false
    else lexLe as bs

/-- The order Python sorted uses on strings. -/
def strle (a b : String) : Prop := lexLe a.data b.data = true

instance : DecidableRel strle :=
  fun a b => inferInstanceAs (Decidable (lexLe a.data b.data = true))

/-- Python set.add: append the element unless already present.  The list
is the set in iteration order; only membership is ever observed. -/
def setInsert (l : List String) (a : String) : List String :=
  if a ∈ l then l else l ++ [a]

/-- Python set.update: insert every element of the second list. -/
def setUnion (l m : List String) : List String := m.foldl setInsert l

/-- Collapse adjacent space characters to one, the effect of the regex
substitution of one or more whitespace characters by one space after
every whitespace character has been mapped to a plain space. -/
def squeezeSpaces : List Char → List Char
  | [] => []
  | [a] => [a]
  | a :: b :: rest =>
    if a = ' ' && b = ' ' then squeezeSpaces (b :: rest)
    else a :: squeezeSpaces (b :: rest)

/-- re.sub of one-or-more-whitespace by a single space. -/
def collapseWs (l : List Char) : List Char :=
  squeezeSpaces (l.map (fun c => if isPySpace c then ' ' else c))

/-- A character of the regex class backslash-w, at the ASCII level. -/
def isWordChar (c : Char) : Bool := c.isAlphanum || c = '_'

/-! ### Normalizers (src/cvm_core.py lines 13-30; identical definitions
appear in src/core.py lines 12-19) -/

/-- norm_cols: uppercase, strip, remove BOM and line-ending characters,
applied to every column name. -/
def norm_col (c : String) : String :=
  ⟨(pyStrip (pyUpper c)).data.filter
    (fun ch => !(ch = '\uFEFF' || ch = '\r' || ch = '\n'))⟩

def norm_cols (cols : List String) : List String := cols.map norm_col

/-- A character of the regex class A-Z0-9, the characters the ISIN and
code normalizers keep. -/
def isAZ09 (c : Char) : Bool := c.isUpper || c.isDigit

/-- norm_isin: uppercase then keep only characters in the class A-Z0-9. -/
def norm_isin (x : String) : String :=
  ⟨(pyUpper x).data.filter isAZ09⟩

/-- norm_code: textually the same definition as norm_isin in the source. -/
def norm_code (x : String) : String :=
  ⟨(pyUpper x).data.filter isAZ09⟩

/-- norm_desc: uppercase, strip, collapse whitespace runs, replace
non-word non-space characters by spaces, collapse again, strip. -/
def norm_desc (x : String) : String :=
  let a := pyStripList (pyUpper x).data
  let b := collapseWs a
  let c := b.map (fun ch => if isWordChar ch || isPySpace ch then ch else ' ')
  ⟨pyStripList (collapseWs c)⟩

/-- norm_cnpj: remove every non-digit character. -/
def norm_cnpj (x : String) : String := ⟨x.data.filter Char.isDigit⟩

/-! ### Clamps (src/cvm_core.py lines 255-256) -/

def clamp_workers (w : Int) : Int := max 1 (min w 6)

def clamp_meses (m : Int) : Int := max 1 (min m 60)

/-- Examples evaluating the helpers on concrete data, keeping the
embedding honest. -/
example : norm_isin "BR BKMD BS0 A1" = "BRBKMDBS0A1" := rfl
example : norm_cnpj "12.345.678/0001-90" = "12345678000190" := rfl
example : strContains "CNPJ_FUNDO_CLASSE" "CNPJ" = true := rfl

/-! ### Directory listing (src/cvm_core.py lines 33-44)

The regex findall of cda_fi_ followed by six digits followed by .zip is
embedded as a left-to-right scan emitting the six captured digits of each
non-overlapping match and resuming after it.  The fixed pattern length is
17 characters.  The recursion is driven by a fuel argument equal to the
input length, which strictly dominates the number of steps. -/

/-- Try to match the archive-name pattern at the head of the character
list; on success return the six captured digits and the remainder after
the match. -/
def matchZipAt (l : List Char) : Option (String × List Char) :=
  if l.take 7 = "cda_fi_".data
      && ((l.drop 7).take 6).length = 6
      && ((l.drop 7).take 6).all Char.isDigit
      && (l.drop 13).take 4 = ".zip".data then
    some (⟨(l.drop 7).take 6⟩, l.drop 17)
  else
    none

/-- re.findall of the archive-name pattern. -/
def findZips : Nat → List Char → List String
  | 0, _ => []
  | _, [] => []
  | Nat.succ n, l@(_ :: rest) =>
    match matchZipAt l with
    | some (tok, rest') => tok :: findZips n rest'
    | none => findZips n rest

/-- listar_zips_disponiveis, as a function of the fetched directory page:
all distinct period tokens, most recent first.  Python sorted over a set
with reverse=True is embedded as deduplication, ascending insertion sort
and reversal. -/
def listar_zips_disponiveis (html : String) : Except String (List String) :=
  let zips := findZips html.data.length html.data
  if zips.isEmpty then
    .error "Não encontrei arquivos ZIP no diretório da CVM."
  else
    .ok ((List.insertionSort strle zips.dedup).reverse)

example : listar_zips_disponiveis "<a>cda_fi_202312.zip</a> <a>cda_fi_202401.zip</a>"
    = .ok ["202401", "202312"] := rfl

/-! ### Column selection (src/cvm_core.py lines 46-63) -/

/-- _get_cnpj_col: prefer the exact name CNPJ_FUNDO_CLASSE; else any
column containing CNPJ, preferring one also containing CLASSE. -/
def _get_cnpj_col (columns : List String) : Option String :=
  if columns.contains "CNPJ_FUNDO_CLASSE" then some "CNPJ_FUNDO_CLASSE"
  else
    match columns.filter (fun c => strContains c "CNPJ") with
    | [] => none
    | c0 :: _ =>
      match columns.filter (fun c => strContains c "CNPJ" && strContains c "CLASSE") with
      | [] => some c0
      | c1 :: _ => some c1

/-- _get_cd_ativo_cols: the fixed asset-code names present, then every
other column starting with CD_ and containing ATIV. -/
def _get_cd_ativo_cols (columns : List String) : List String :=
  let fixed := (["CD_ATIVO", "CD_ATIV", "COD_ATIVO", "CODIGO_ATIVO"]).filter
    (fun n => columns.contains n)
  fixed ++ columns.filter
    (fun c => strContains c "ATIV" && c.startsWith "CD_" && !(fixed.contains c))

/-! ### Record scanners (src/cvm_core.py lines 66-196) -/

/-- A parsed delimited table: a header row of column names and data rows
of cell strings. -/
structure Table where
  header : List String
  rows : List (List String)
deriving DecidableEq

/-- One MatchResult per scanned file: the set of normalized taxpayer IDs,
the at-least-one-row-matched flag, and the optional error message. -/
structure MatchResult where
  cnpjs : List String
  found : Bool
  err : Option String
deriving DecidableEq

/-- pandas cell access inside a chunk: a missing cell renders as nan
after astype(str). -/
def cellAt (row : List String) (i : Nat) : String := row.getD i "nan"

/-- The shared tail of every _scan_pandas branch: filter the rows by the
mask, and when any row survives collect the normalized taxpayer IDs of
the surviving rows, dropping empty values and the NAN artifact. -/
def pandasCollect (t : Table) (cols : List String) (cnpj_col : String)
    (pred : List String → Bool) : List String × Bool :=
  let sub := t.rows.filter pred
  if sub.isEmpty then ([], false)
  else
    let vals := sub.map (fun row => norm_cnpj (cellAt row (cols.indexOf cnpj_col)))
    (setUnion [] (vals.filter (fun v => v != "" && v != "NAN")), true)

/-- _scan_pandas of src/cvm_core.py on one parsed table.  The chunk loop
checks the taxpayer-ID column before dispatching on the mode, so a table
without such a column yields the empty no-match result for every mode. -/
def _scan_pandas (t : Table) (termo modo : String) :
    Except String (List String × Bool) :=
  let cols := norm_cols t.header
  match _get_cnpj_col cols with
  | none => .ok ([], false)
  | some cnpj_col =>
    let t_isin := norm_isin termo
    let t_code := norm_code termo
    let t_desc := norm_desc termo
    if modo == "ISIN" then
      let isin_cols := cols.filter (fun c => strContains c "ISIN")
      if isin_cols.isEmpty then .ok ([], false)
      else .ok (pandasCollect t cols cnpj_col
        (fun row => isin_cols.any (fun col => norm_isin (cellAt row (cols.indexOf col)) == t_isin)))
    else if modo == "CDB_CODIGO" then
      let cd_cols := _get_cd_ativo_cols cols
      if cd_cols.isEmpty then .ok ([], false)
      else .ok (pandasCollect t cols cnpj_col
        (fun row => cd_cols.any (fun col => norm_code (cellAt row (cols.indexOf col)) == t_code)))
    else if modo == "CDB_DESCR_EXATA" then
      if !(cols.contains "DS_ATIVO") then .ok ([], false)
      else .ok (pandasCollect t cols cnpj_col
        (fun row => norm_desc (cellAt row (cols.indexOf "DS_ATIVO")) == t_desc))
    else .error "modo inválido"

/-- The repeated body of the fallback row loops: record the matched row
as found and add the normalized taxpayer ID when the row is long enough
and the value is non-empty. -/
def addCnpj (cnpjs : List String) (row : List String) (cnpj_idx : Nat) : List String :=
  if cnpj_idx < row.length then
    let c := norm_cnpj (row.getD cnpj_idx "")
    if c != "" then setInsert cnpjs c else cnpjs
  else cnpjs

/-- _scan_csv_fallback of src/cvm_core.py on the raw parsed rows; the
first row is the header, the rest are data rows. -/
def _scan_csv_fallback (rows : List (List String)) (termo modo : String) :
    Except String (List String × Bool) :=
  let header := norm_cols (rows.headD [])
  let body := rows.tail
  match _get_cnpj_col header with
  | none => .ok ([], false)
  | some cnpj_col =>
    let cnpj_idx := header.indexOf cnpj_col
    let t_isin := norm_isin termo
    let t_code := norm_code termo
    let t_desc := norm_desc termo
    if modo == "ISIN" then
      let idxs : List Nat := (header.enum.filter (fun p => strContains p.2 "ISIN")).map (fun p => p.1)
      if idxs.isEmpty then .ok ([], false)
      else .ok (body.foldl (fun (acc : List String × Bool) row =>
        if idxs.any (fun i => decide (i < row.length) && (norm_isin (row.getD i "") == t_isin)) then
          (addCnpj acc.1 row cnpj_idx, true)
        else acc) ([], false))
    else if modo == "CDB_CODIGO" then
      let cd_cols := _get_cd_ativo_cols header
      if cd_cols.isEmpty then .ok ([], false)
      else
        let idxs : List Nat := (cd_cols.filter (fun c => header.contains c)).map (fun c => header.indexOf c)
        .ok (body.foldl (fun (acc : List String × Bool) row =>
          if idxs.any (fun i => decide (i < row.length) && (norm_code (row.getD i "") == t_code)) then
            (addCnpj acc.1 row cnpj_idx, true)
          else acc) ([], false))
    else if modo == "CDB_DESCR_EXATA" then
      if !(header.contains "DS_ATIVO") then .ok ([], false)
      else
        let ds_idx := header.indexOf "DS_ATIVO"
        .ok (body.foldl (fun (acc : List String × Bool) row =>
          if decide (ds_idx < row.length) && (norm_desc (row.getD ds_idx "") == t_desc) then
            (addCnpj acc.1 row cnpj_idx, true)
          else acc) ([], false))
    else .error "modo inválido"

/-- The external effects of one per-file task: the outcome of opening and
decoding the contained file (decode itself never fails, but opening the
entry inside the archive can), and the two external parsers applied to
the decoded text. -/
structure FileInput where
  openR : Except String String
  pandasParse : String → Except String Table
  csvParse : String → Except String (List (List String))

/-- _processar_arquivo: open and decode, try the structured scan, fall
back to the manual scan on any exception, and capture any exception
escaping both strategies (or the open itself) as the error message. -/
def _processar_arquivo (fi : FileInput) (termo modo : String) : MatchResult :=
  match fi.openR with
  | .error e => ⟨[], false, some e⟩
  | .ok content =>
    match (fi.pandasParse content).bind (fun t => _scan_pandas t termo modo) with
    | .ok (cnpjs, found) => ⟨cnpjs, found, none⟩
    | .error _ =>
      match (fi.csvParse content).bind (fun rs => _scan_csv_fallback rs termo modo) with
      | .ok (cnpjs, found) => ⟨cnpjs, found, none⟩
      | .error e => ⟨[], false, some e⟩

/-! ### Fan-out merge (src/cvm_core.py lines 198-227) -/

/-- Python truthiness of the optional error string: None and the empty
string are falsy. -/
def is_truthy_err : Option String → Bool
  | none => false
  | some s => s != ""

/-- One iteration of the as_completed merge loop of _varrer_um_mes. -/
def varrer_step (acc : List String × List String × List (String × String))
    (x : String × MatchResult) :
    List String × List String × List (String × String) :=
  if is_truthy_err x.2.err then
    (acc.1, acc.2.1, acc.2.2 ++ [(x.1, x.2.err.getD "")])
  else if x.2.found then
    (setUnion acc.1 x.2.cnpjs, acc.2.1 ++ [x.1], acc.2.2)
  else acc

/-- The merge loop of _varrer_um_mes over the per-file results in the
order the worker pool completes them. -/
def varrer_merge (results : List (String × MatchResult)) :
    List String × List String × List (String × String) :=
  results.foldl varrer_step ([], [], [])

/-- _varrer_um_mes with the network fetch and the archive listing
abstracted: the argument is the list of contained csv files paired with
their per-file external effects, already arranged in the completion
order of the worker pool.  The worker count does not enter the data
flow; it only bounds the pool. -/
def _varrer_um_mes (files : List (String × FileInput)) (termo modo : String)
    (max_workers : Int) : List String × List String × List (String × String) :=
  varrer_merge (files.map (fun p => (p.1, _processar_arquivo p.2 termo modo)))

/-! ### Multi-period search (src/cvm_core.py lines 230-292) -/

/-- The mode-derivation and validation prefix of buscar_cnpjs
(lines 242-253). -/
def derive_modo (ativo categoria : String) : Except String String :=
  let ativo := pyStrip ativo
  if ativo == "" then .error "Ativo vazio."
  else
    let categoria := pyUpper (pyStrip categoria)
    if !(categoria == "CREDITO_PRIVADO" || categoria == "CDB") then
      .error "Categoria inválida. Use CREDITO_PRIVADO ou CDB."
    else if categoria == "CREDITO_PRIVADO" then .ok "ISIN"
    else if " ".data <:+: ativo.data then .ok "CDB_DESCR_EXATA"
    else .ok "CDB_CODIGO"

/-- The period-selection step of buscar_cnpjs (lines 255-266): clamp the
requested period count, list the available periods, keep the most recent
ones, and fix the oldest selected period before any archive is fetched. -/
def select_periods (html : String) (meses : Int) :
    Except String (List String × String) :=
  let ms := clamp_meses meses
  match listar_zips_disponiveis html with
  | .error e => .error e
  | .ok all =>
    let yyyymms := all.take ms.toNat
    match yyyymms.getLast? with
    | none => .error "IndexError: list index out of range"
    | some ultimo => .ok (yyyymms, ultimo)

/-- The final rendering of the accumulated taxpayer-ID set
(src/cvm_core.py line 287): drop falsy entries and sort ascending. -/
def final_cnpj_table (cn : List String) : List String :=
  List.insertionSort strle (cn.filter (fun c => c != ""))

/-- The five tables returned by buscar_cnpjs. -/
structure BuscaResult where
  ultimo : String
  df_cnpjs : List String
  df_matches : List (String × String)
  df_errors : List (String × String × String)
  df_meses_match : List String
deriving DecidableEq

/-- buscar_cnpjs with the two network effects abstracted: html is the
fetched directory listing and fetch gives, for each period, the archive
contents as the per-file external effects in worker completion order.
Appending an empty row block and uniting an empty set are identities, so
the three truthiness guards of the source loop are embedded only where
they are observable (the match-period set). -/
def buscar_cnpjs (html : String) (fetch : String → List (String × FileInput))
    (ativo categoria : String) (max_workers meses : Int) :
    Except String BuscaResult := do
  let modo ← derive_modo ativo categoria
  let termo := pyStrip ativo
  let mw := clamp_workers max_workers
  let (yyyymms, ultimo) ← select_periods html meses
  let st := yyyymms.foldl (fun acc yyyymm =>
    let r := _varrer_um_mes (fetch yyyymm) termo modo mw
    (setUnion acc.1 r.1,
     acc.2.1 ++ r.2.1.map (fun arq => (yyyymm, arq)),
     acc.2.2.1 ++ r.2.2.map (fun p => (yyyymm, p.1, p.2)),
     if r.2.1.isEmpty then acc.2.2.2 else setInsert acc.2.2.2 yyyymm))
    (([], [], [], []) : List String × List (String × String) ×
      List (String × String × String) × List String)
  .ok ⟨ultimo,
       final_cnpj_table st.1,
       st.2.1,
       st.2.2.1,
       (List.insertionSort strle st.2.2.2).reverse⟩

/-! ### The legacy single-archive scanner (src/core.py lines 29-72)

core.py sets the found flag as soon as a row matches on the ISIN columns
and only afterwards looks for a taxpayer-ID column, inlining the same
column preference logic that cvm_core.py names _get_cnpj_col. -/

/-- _scan_pandas of src/core.py on one parsed table. -/
def core_scan_pandas (t : Table) (isin_target : String) : List String × Bool :=
  let cols := norm_cols t.header
  let isin_cols := cols.filter (fun c => strContains c "ISIN")
  if isin_cols.isEmpty then ([], false)
  else
    let sub := t.rows.filter
      (fun row => isin_cols.any (fun col => norm_isin (cellAt row (cols.indexOf col)) == isin_target))
    if sub.isEmpty then ([], false)
    else
      match _get_cnpj_col cols with
      | none => ([], true)
      | some cnpj_col =>
        let vals := sub.map (fun row => norm_cnpj (cellAt row (cols.indexOf cnpj_col)))
        (setUnion [] (vals.filter (fun v => v != "" && v != "NAN")), true)

/-! ### Order lemmas for the Python string order -/

theorem lexLe_total : ∀ a b : List Char, lexLe a b = true ∨ lexLe b a = true := by
  intro a
  induction a with
  | nil => intro b; left; rfl
  | cons x xs ih =>
    intro b
    cases b with
    | nil => right; rfl
    | cons y ys =>
      simp only [lexLe]
      rcases Nat.lt_trichotomy x.toNat y.toNat with h | h | h
      · left; simp [h]
      · have h2 : ¬ x.toNat < y.toNat := by omega
        have h3 : ¬ y.toNat < x.toNat := by omega
        simp [h2, h3]
        exact ih ys
      · right; simp [h, Nat.lt_asymm h]

theorem char_toNat_inj {a b : Char} (h : a.toNat = b.toNat) : a = b :=
  Char.eq_of_val_eq (UInt32.eq_of_toBitVec_eq (BitVec.eq_of_toNat_eq h))

theorem lexLe_trans : ∀ a b c, lexLe a b = true → lexLe b c = true → lexLe a c = true := by
  intro a
  induction a with
  | nil => intro b c _ _; rfl
  | cons x xs ih =>
    intro b c hab hbc
    match b, c with
    | [], _ => simp [lexLe] at hab
    | _ :: _, [] => simp [lexLe] at hbc
    | y :: ys, z :: zs =>
      simp only [lexLe] at hab hbc ⊢
      split_ifs at hab hbc ⊢ <;> try rfl
      all_goals first
        | (exact absurd hab Bool.false_ne_true)
        | (exact absurd hbc Bool.false_ne_true)
        | (exfalso; omega)
        | (exact ih ys zs hab hbc)

theorem lexLe_antisymm : ∀ a b, lexLe a b = true → lexLe b a = true → a = b := by
  intro a
  induction a with
  | nil =>
    intro b hab hba
    cases b with
    | nil => rfl
    | cons y ys => simp [lexLe] at hba
  | cons x xs ih =>
    intro b hab hba
    cases b with
    | nil => simp [lexLe] at hab
    | cons y ys =>
      simp only [lexLe] at hab hba
      split_ifs at hab hba
      all_goals first
        | (exact absurd hab Bool.false_ne_true)
        | (exact absurd hba Bool.false_ne_true)
        | (exfalso; omega)
        | (rename_i h1 h2
           have hx : x = y := char_toNat_inj (by omega)
           rw [hx, ih ys hab hba])

theorem lexLe_refl : ∀ a : List Char, lexLe a a = true := by
  intro a
  induction a with
  | nil => rfl
  | cons x xs ih => simp [lexLe, ih]

instance : IsTotal String strle := ⟨fun a b => lexLe_total a.data b.data⟩

instance : IsTrans String strle := ⟨fun a b c => lexLe_trans a.data b.data c.data⟩

instance : IsRefl String strle := ⟨fun a => lexLe_refl a.data⟩

instance : IsAntisymm String strle :=
  ⟨fun a b h1 h2 => by
    cases a; cases b
    exact congrArg String.mk (lexLe_antisymm _ _ h1 h2)⟩

/-! ### Character-level facts -/

/-- A character kept by the ISIN normalizer is a fixed point of
uppercasing. -/
theorem keep_toUpper_fix (c : Char) (h : isAZ09 c = true) : c.toUpper = c := by
  simp only [isAZ09, Char.isUpper, Char.isDigit, Bool.or_eq_true, Bool.and_eq_true,
    decide_eq_true_iff, UInt32.le_def, BitVec.le_def] at h
  simp only [Char.toUpper, Char.toNat]
  rw [if_neg]
  rintro ⟨h1, h2⟩
  have hval : c.val.toNat = c.val.toBitVec.toNat := rfl
  rw [hval] at h1 h2
  rcases h with ⟨ha, hb⟩ | ⟨ha, hb⟩ <;>
    simp only [show ((65 : UInt32)).toBitVec.toNat = 65 from rfl,
      show ((90 : UInt32)).toBitVec.toNat = 90 from rfl,
      show ((48 : UInt32)).toBitVec.toNat = 48 from rfl,
      show ((57 : UInt32)).toBitVec.toNat = 57 from rfl] at ha hb <;> omega

theorem norm_isin_idem (s : String) : norm_isin (norm_isin s) = norm_isin s := by
  have key : ∀ l : List Char,
      ((l.filter isAZ09).map Char.toUpper).filter isAZ09 = l.filter isAZ09 := by
    intro l
    rw [show (l.filter isAZ09).map Char.toUpper = l.filter isAZ09 from by
      rw [show (l.filter isAZ09).map Char.toUpper = (l.filter isAZ09).map id from
        List.map_congr_left (fun a ha => keep_toUpper_fix a (List.mem_filter.mp ha).2)]
      exact List.map_id _]
    exact List.filter_eq_self.mpr (fun a ha => (List.mem_filter.mp ha).2)
  show (⟨(((s.data.map Char.toUpper).filter isAZ09).map Char.toUpper).filter isAZ09⟩ : String)
      = ⟨(s.data.map Char.toUpper).filter isAZ09⟩
  exact congrArg String.mk (key (s.data.map Char.toUpper))

theorem norm_code_idem (s : String) : norm_code (norm_code s) = norm_code s :=
  norm_isin_idem s

/-! ### Claim theorems, first group -/

/-- C8: the ISIN and code normalizers of src/cvm_core.py lines 16-20 are
idempotent: for every input string, normalizing twice equals normalizing
once. -/
theorem C8_norm_idempotent (s : String) :
    norm_isin (norm_isin s) = norm_isin s ∧ norm_code (norm_code s) = norm_code s :=
  ⟨norm_isin_idem s, norm_code_idem s⟩

/-- C9: the description normalizer of src/cvm_core.py lines 22-27 maps
the string AB-spaces-CD-commas-ef to AB CD EF: uppercase, punctuation to
spaces, whitespace runs collapsed, ends trimmed. -/
theorem C9_norm_desc_example : norm_desc "AB   CD,,ef" = "AB CD EF" := rfl

/-- C7: buscar_cnpjs (src/cvm_core.py lines 255-256) clamps the worker
count into the range one to six and the period count into the range one
to sixty before use; in particular one hundred periods clamp to sixty and
zero workers clamp to one. -/
theorem C7_clamps (w m : Int) :
    (1 ≤ clamp_workers w ∧ clamp_workers w ≤ 6 ∧
     1 ≤ clamp_meses m ∧ clamp_meses m ≤ 60) ∧
    clamp_meses 100 = 60 ∧ clamp_workers 0 = 1 := by
  refine ⟨⟨le_max_left _ _, ?_, le_max_left _ _, ?_⟩, by decide, by decide⟩
  · exact max_le (by norm_num) (min_le_right _ _)
  · exact max_le (by norm_num) (min_le_right _ _)

/-! ### Claim C4: match-mode selection -/

/-- C4 counterexample: the claim says any whitespace in the trimmed term
selects exact-description matching for category CDB, but the source
tests only for a literal space character; a term with an internal tab
contains whitespace after trimming yet selects code matching. -/
theorem C4_counterexample :
    (pyStrip "CDB\t2236XODL").data.any isPySpace = true ∧
    derive_modo "CDB\t2236XODL" "CDB" = .ok "CDB_CODIGO" ∧
    ("CDB_CODIGO" : String) ≠ "CDB_DESCR_EXATA" := by
  refine ⟨by decide, rfl, by decide⟩

/-- C4 (amended): category CREDITO_PRIVADO selects ISIN mode; category
CDB selects exact-description mode exactly when the trimmed term
contains a space character, and code mode otherwise; in particular the
two scenario terms of the claim select code mode and exact-description
mode respectively. -/
theorem C4_match_mode (ativo : String) (h : pyStrip ativo ≠ "") :
    derive_modo ativo "CREDITO_PRIVADO" = .ok "ISIN" ∧
    derive_modo ativo "CDB" =
      .ok (if " ".data <:+: (pyStrip ativo).data then "CDB_DESCR_EXATA" else "CDB_CODIGO") ∧
    derive_modo "CDB2236XODL" "CDB" = .ok "CDB_CODIGO" ∧
    derive_modo "CDB PRE DU CDB2236XODL" "CDB" = .ok "CDB_DESCR_EXATA" := by
  have hne : (pyStrip ativo == "") = false := by
    simp [h]
  refine ⟨?_, ?_, rfl, rfl⟩
  · simp only [derive_modo, hne]
    norm_num [show pyUpper (pyStrip "CREDITO_PRIVADO") = "CREDITO_PRIVADO" from rfl]
  · simp only [derive_modo, hne]
    norm_num [show pyUpper (pyStrip "CDB") = "CDB" from rfl]
    by_cases hsp : [' '] <:+: (pyStrip ativo).data <;> simp [hsp]

theorem C4_match_mode_witness :
    derive_modo "X1" "CREDITO_PRIVADO" = .ok "ISIN" ∧
    derive_modo "X1" "CDB" =
      .ok (if " ".data <:+: (pyStrip "X1").data then "CDB_DESCR_EXATA" else "CDB_CODIGO") ∧
    derive_modo "CDB2236XODL" "CDB" = .ok "CDB_CODIGO" ∧
    derive_modo "CDB PRE DU CDB2236XODL" "CDB" = .ok "CDB_DESCR_EXATA" :=
  C4_match_mode "X1" (by decide)

/-! ### Set and invariant helper lemmas -/

theorem mem_setInsert {l : List String} {a x : String} :
    x ∈ setInsert l a ↔ x ∈ l ∨ x = a := by
  by_cases h : a ∈ l
  · simp only [setInsert, if_pos h]
    refine ⟨Or.inl, ?_⟩
    rintro (hx | rfl)
    · exact hx
    · exact h
  · simp [setInsert, if_neg h, List.mem_append]

theorem mem_setUnion {l m : List String} {x : String} :
    x ∈ setUnion l m ↔ x ∈ l ∨ x ∈ m := by
  induction m generalizing l with
  | nil => simp [setUnion]
  | cons a m ih =>
    show x ∈ setUnion (setInsert l a) m ↔ _
    rw [ih, mem_setInsert]
    simp [List.mem_cons, or_assoc]

theorem nodup_setInsert {l : List String} (a : String) (h : l.Nodup) :
    (setInsert l a).Nodup := by
  by_cases ha : a ∈ l
  · simpa [setInsert, if_pos ha]
  · simp only [setInsert, if_neg ha]
    simpa [List.nodup_append] using ⟨h, ha⟩

theorem nodup_setUnion {l : List String} (m : List String) (h : l.Nodup) :
    (setUnion l m).Nodup := by
  induction m generalizing l with
  | nil => exact h
  | cons a m ih => exact ih (nodup_setInsert a h)

/-- Every string the taxpayer-ID normalizer produces consists of decimal
digits only. -/
def allDigits (s : String) : Bool := s.data.all Char.isDigit

theorem norm_cnpj_digits (x : String) : allDigits (norm_cnpj x) = true := by
  simp only [allDigits, norm_cnpj, List.all_eq_true]
  intro c hc
  exact (List.mem_filter.mp hc).2

theorem foldl_inv {σ α : Type _} (P : σ → Prop) (f : σ → α → σ) (l : List α) (init : σ)
    (h0 : P init) (hstep : ∀ s a, P s → P (f s a)) : P (l.foldl f init) := by
  induction l generalizing init with
  | nil => exact h0
  | cons a l ih => exact ih _ (hstep _ _ h0)

theorem except_bind_ok {ε α β : Type _} {e : Except ε α} {f : α → Except ε β} {v : β}
    (h : e.bind f = .ok v) : ∃ a, e = .ok a ∧ f a = .ok v := by
  cases e with
  | error e => simp [Except.bind] at h
  | ok a => exact ⟨a, rfl, h⟩

/-! ### Scanner invariants: if no row matched the ID set is empty, and
every collected ID consists only of digits -/

theorem pandasCollect_inv (t : Table) (cols : List String) (cnpj_col : String)
    (pred : List String → Bool) :
    ((pandasCollect t cols cnpj_col pred).2 = false →
      (pandasCollect t cols cnpj_col pred).1 = []) ∧
    ∀ c ∈ (pandasCollect t cols cnpj_col pred).1, allDigits c = true := by
  cases hsub : (t.rows.filter pred).isEmpty <;>
    simp only [pandasCollect, hsub, Bool.false_eq_true, if_false, if_true]
  · refine ⟨by simp, ?_⟩
    intro c hc
    rcases mem_setUnion.mp hc with h | h
    · simp at h
    · rcases List.mem_filter.mp h with ⟨hm, _⟩
      rcases List.mem_map.mp hm with ⟨row, _, rfl⟩
      exact norm_cnpj_digits _
  · exact ⟨fun _ => trivial, by simp⟩

theorem scan_pandas_inv {t : Table} {termo modo : String} {s : List String} {f : Bool}
    (h : _scan_pandas t termo modo = .ok (s, f)) :
    (f = false → s = []) ∧ ∀ c ∈ s, allDigits c = true := by
  unfold _scan_pandas at h
  dsimp only at h
  repeat' split at h
  all_goals first
    | exact Except.noConfusion h
    | (injection h with h'
       have h1 : _ = s := congrArg Prod.fst h'
       have h2 : _ = f := congrArg Prod.snd h'
       subst h1
       subst h2
       first
         | exact pandasCollect_inv _ _ _ _
         | exact ⟨fun _ => trivial, by simp⟩
         | exact ⟨fun _ => rfl, by simp⟩)

theorem addCnpj_mem {cnpjs row : List String} {cnpj_idx : Nat} {c : String}
    (hc : c ∈ addCnpj cnpjs row cnpj_idx) :
    c ∈ cnpjs ∨ ∃ x, c = norm_cnpj x := by
  unfold addCnpj at hc
  dsimp only at hc
  split at hc
  · split at hc
    · rcases mem_setInsert.mp hc with h | h
      · exact Or.inl h
      · exact Or.inr ⟨_, h⟩
    · exact Or.inl hc
  · exact Or.inl hc

theorem scanRow_inv {cnpj_idx : Nat} (b : Bool)
    (acc : List String × Bool) (row : List String)
    (hP : (acc.2 = false → acc.1 = []) ∧ ∀ c ∈ acc.1, allDigits c = true) :
    (((if b then (addCnpj acc.1 row cnpj_idx, true) else acc).2 = false →
      (if b then (addCnpj acc.1 row cnpj_idx, true) else acc).1 = []) ∧
     ∀ c ∈ (if b then (addCnpj acc.1 row cnpj_idx, true) else acc).1,
       allDigits c = true) := by
  split
  · refine ⟨fun hf => by simp at hf, ?_⟩
    intro c hc
    rcases addCnpj_mem hc with h | ⟨x, rfl⟩
    · exact hP.2 c h
    · exact norm_cnpj_digits _
  · exact hP

theorem scan_csv_fallback_inv {rows : List (List String)} {termo modo : String}
    {s : List String} {f : Bool}
    (h : _scan_csv_fallback rows termo modo = .ok (s, f)) :
    (f = false → s = []) ∧ ∀ c ∈ s, allDigits c = true := by
  unfold _scan_csv_fallback at h
  dsimp only at h
  repeat' split at h
  all_goals first
    | exact Except.noConfusion h
    | (injection h with h'
       have h1 : _ = s := congrArg Prod.fst h'
       have h2 : _ = f := congrArg Prod.snd h'
       subst h1
       subst h2
       first
         | (refine foldl_inv (fun (acc : List String × Bool) =>
              (acc.2 = false → acc.1 = []) ∧ ∀ c ∈ acc.1, allDigits c = true) _ _ _ ?_ ?_
            · exact ⟨fun _ => rfl, by simp⟩
            · intro acc row hP
              exact scanRow_inv _ acc row hP)
         | exact ⟨fun _ => trivial, by simp⟩
         | exact ⟨fun _ => rfl, by simp⟩)

theorem processar_arquivo_inv (fi : FileInput) (termo modo : String) :
    ((_processar_arquivo fi termo modo).found = false →
      (_processar_arquivo fi termo modo).cnpjs = []) ∧
    ((_processar_arquivo fi termo modo).err.isSome →
      (_processar_arquivo fi termo modo).cnpjs = [] ∧
      (_processar_arquivo fi termo modo).found = false) ∧
    ∀ c ∈ (_processar_arquivo fi termo modo).cnpjs, allDigits c = true := by
  unfold _processar_arquivo
  split
  · exact ⟨fun _ => rfl, fun _ => ⟨rfl, rfl⟩, by simp⟩
  · split
    · rename_i content heq cnpjs found hok
      obtain ⟨t, _, hscan⟩ := except_bind_ok hok
      have hinv := scan_pandas_inv hscan
      exact ⟨hinv.1, fun hsome => by simp at hsome, hinv.2⟩
    · split
      · rename_i content heq hfail cnpjs found hok
        obtain ⟨rs, _, hscan⟩ := except_bind_ok hok
        have hinv := scan_csv_fallback_inv hscan
        exact ⟨hinv.1, fun hsome => by simp at hsome, hinv.2⟩
      · exact ⟨fun _ => rfl, fun _ => ⟨rfl, rfl⟩, by simp⟩

/-! ### Claim C6: MatchResult invariants and failure capture -/

/-- C6: every per-file scan returns a MatchResult with: found false
implies an empty ID set; an error present implies an empty ID set and
found false.  No exception escapes the per-file entry point: an open
failure is returned as the error message, and when both strategies
raise, the fallback message is returned as the error. -/
theorem C6_matchresult_invariants (fi : FileInput) (termo modo : String) :
    ((_processar_arquivo fi termo modo).found = false →
      (_processar_arquivo fi termo modo).cnpjs = []) ∧
    ((_processar_arquivo fi termo modo).err.isSome →
      (_processar_arquivo fi termo modo).cnpjs = [] ∧
      (_processar_arquivo fi termo modo).found = false) ∧
    (∀ e, fi.openR = .error e → _processar_arquivo fi termo modo = ⟨[], false, some e⟩) ∧
    (∀ content m₁ m₂, fi.openR = .ok content →
      (fi.pandasParse content).bind (fun t => _scan_pandas t termo modo) = .error m₁ →
      (fi.csvParse content).bind (fun rs => _scan_csv_fallback rs termo modo) = .error m₂ →
      _processar_arquivo fi termo modo = ⟨[], false, some m₂⟩) := by
  refine ⟨(processar_arquivo_inv fi termo modo).1,
    (processar_arquivo_inv fi termo modo).2.1, ?_, ?_⟩
  · intro e he
    unfold _processar_arquivo
    rw [he]
  · intro content m₁ m₂ hopen h1 h2
    unfold _processar_arquivo
    rw [hopen]
    dsimp only
    rw [h1]
    dsimp only
    rw [h2]

theorem C6_matchresult_invariants_witness :
    _processar_arquivo ⟨.error "boom", fun _ => .error "p", fun _ => .error "c"⟩ "t" "ISIN"
      = ⟨[], false, some "boom"⟩ :=
  (C6_matchresult_invariants ⟨.error "boom", fun _ => .error "p", fun _ => .error "c"⟩
    "t" "ISIN").2.2.1 "boom" rfl

/-! ### Claim C5: fallback exactly on structured-parse exception -/

/-- C5: the manual fallback runs exactly when the structured strategy
raises: a structured success is returned unchanged whatever the fallback
would do, and a structured failure followed by a fallback success yields
the fallback MatchResult with no error, so the merge appends the file to
the match table when it matched and never to the error table. -/
theorem C5_fallback_on_exception (content termo modo name : String)
    (pparse : String → Except String Table)
    (cparse : String → Except String (List (List String))) :
    (∀ r, (pparse content).bind (fun t => _scan_pandas t termo modo) = .ok r →
      _processar_arquivo ⟨.ok content, pparse, cparse⟩ termo modo = ⟨r.1, r.2, none⟩) ∧
    (∀ m s f, (pparse content).bind (fun t => _scan_pandas t termo modo) = .error m →
      (cparse content).bind (fun rs => _scan_csv_fallback rs termo modo) = .ok (s, f) →
      _processar_arquivo ⟨.ok content, pparse, cparse⟩ termo modo = ⟨s, f, none⟩ ∧
      (varrer_merge [(name, ⟨s, f, none⟩)]).2.2 = [] ∧
      (f = true → (varrer_merge [(name, ⟨s, f, none⟩)]).2.1 = [name])) := by
  constructor
  · intro r hok
    obtain ⟨s, f⟩ := r
    unfold _processar_arquivo
    dsimp only
    rw [hok]
  · intro m s f h1 h2
    refine ⟨?_, ?_, ?_⟩
    · unfold _processar_arquivo
      dsimp only
      rw [h1]
      dsimp only
      rw [h2]
    · cases f <;> simp [varrer_merge, varrer_step, is_truthy_err]
    · intro hf
      subst hf
      simp [varrer_merge, varrer_step, is_truthy_err]

theorem C5_fallback_on_exception_witness :
    _processar_arquivo
      ⟨.ok "c", fun _ => .error "bad parse",
        fun _ => .ok [["ISIN_A", "CNPJ_X"], ["BRX", "11.22"]]⟩ "BRX" "ISIN"
      = ⟨["1122"], true, none⟩ ∧
    (varrer_merge [("f.csv", ⟨["1122"], true, none⟩)]).2.2 = [] ∧
    (varrer_merge [("f.csv", ⟨["1122"], true, none⟩)]).2.1 = ["f.csv"] := by
  obtain ⟨h3, h4, h5⟩ :=
    (C5_fallback_on_exception "c" "BRX" "ISIN" "f.csv"
      (fun _ => .error "bad parse")
      (fun _ => .ok [["ISIN_A", "CNPJ_X"], ["BRX", "11.22"]])).2
      "bad parse" ["1122"] true rfl rfl
  exact ⟨h3, h4, h5 rfl⟩

/-! ### Claim C2: files without a taxpayer-ID column -/

theorem get_cnpj_col_none {cols : List String}
    (h : ∀ c ∈ cols, strContains c "CNPJ" = false) : _get_cnpj_col cols = none := by
  unfold _get_cnpj_col
  have h1 : cols.contains "CNPJ_FUNDO_CLASSE" = false := by
    by_contra hc
    have hm : "CNPJ_FUNDO_CLASSE" ∈ cols := by
      simpa using Bool.not_eq_false _ |>.mp hc
    have := h _ hm
    simp [strContains] at this
    exact this (by decide)
  have h2 : cols.filter (fun c => strContains c "CNPJ") = [] := by
    rw [List.filter_eq_nil_iff]
    intro a ha
    simp [h a ha]
  rw [h1, h2]
  simp

/-- C2 counterexample: in src/core.py the found flag is set as soon as a
row matches on an ISIN column, before any taxpayer-ID column is looked
up; a file with no CNPJ-bearing column whose row matches the search
field literally therefore still enters the match table of the legacy
single-archive pipeline (whose merge loop has the same error-then-found
shape embedded as varrer_step). -/
theorem C2_counterexample :
    (∀ c ∈ norm_cols ["ID_ISIN"], strContains c "CNPJ" = false) ∧
    core_scan_pandas ⟨["ID_ISIN"], [["BRX"]]⟩ "BRX" = ([], true) ∧
    (varrer_merge [("x.csv", ⟨[], true, none⟩)]).2.1 = ["x.csv"] :=
  ⟨by decide, rfl, rfl⟩

/-- C2 (amended): in the multi-period scanner of src/cvm_core.py the
original claim holds: a record file whose normalized header has no
column containing CNPJ yields the empty no-match result from either
strategy, its MatchResult carries no error, and merging it leaves every
table unchanged.  The legacy scanner of src/core.py violates the claim
as stated (see the counterexample). -/
theorem C2_no_cnpj_silently_skipped
    (content termo modo name : String) (t : Table)
    (pparse : String → Except String Table)
    (cparse : String → Except String (List (List String)))
    (rs : List (List String))
    (hp : pparse content = .ok t)
    (ht : ∀ c ∈ norm_cols t.header, strContains c "CNPJ" = false)
    (hr : ∀ c ∈ norm_cols (rs.headD []), strContains c "CNPJ" = false) :
    _scan_pandas t termo modo = .ok ([], false) ∧
    _scan_csv_fallback rs termo modo = .ok ([], false) ∧
    _processar_arquivo ⟨.ok content, pparse, cparse⟩ termo modo = ⟨[], false, none⟩ ∧
    ∀ acc, varrer_step acc (name, ⟨[], false, none⟩) = acc := by
  have hps : _scan_pandas t termo modo = .ok ([], false) := by
    unfold _scan_pandas
    dsimp only
    rw [get_cnpj_col_none ht]
  have hcs : _scan_csv_fallback rs termo modo = .ok ([], false) := by
    unfold _scan_csv_fallback
    dsimp only
    rw [get_cnpj_col_none hr]
  refine ⟨hps, hcs, ?_, fun acc => rfl⟩
  unfold _processar_arquivo
  dsimp only
  rw [hp]
  dsimp only [Except.bind]
  rw [hps]

theorem C2_no_cnpj_silently_skipped_witness :
    _scan_pandas ⟨["A"], []⟩ "BRX" "ISIN" = .ok ([], false) ∧
    _scan_csv_fallback [["A"]] "BRX" "ISIN" = .ok ([], false) ∧
    _processar_arquivo ⟨.ok "c", fun _ => .ok ⟨["A"], []⟩, fun _ => .error "e"⟩
      "BRX" "ISIN" = ⟨[], false, none⟩ ∧
    varrer_step ([], [], []) ("x.csv", ⟨[], false, none⟩) = ([], [], []) := by
  obtain ⟨h1, h2, h3, h4⟩ :=
    C2_no_cnpj_silently_skipped "c" "BRX" "ISIN" "x.csv" ⟨["A"], []⟩
      (fun _ => .ok ⟨["A"], []⟩) (fun _ => .error "e") [["A"]]
      rfl (by decide) (by decide)
  exact ⟨h1, h2, h3, h4 ([], [], [])⟩

/-! ### Merge characterization: the three tables as functions of the
multiset of per-file results -/

/-- A per-file result enters the match table: no truthy error and the
found flag set. -/
def keepMatch (x : String × MatchResult) : Bool :=
  !(is_truthy_err x.2.err) && x.2.found

/-- A per-file result enters the error table: a truthy error message. -/
def keepErr (x : String × MatchResult) : Bool := is_truthy_err x.2.err

theorem varrer_foldl_matches (l : List (String × MatchResult))
    (acc : List String × List String × List (String × String)) :
    (l.foldl varrer_step acc).2.1
      = acc.2.1 ++ (l.filter keepMatch).map (fun x => x.1) := by
  induction l generalizing acc with
  | nil => simp
  | cons x l ih =>
    rw [List.foldl_cons, ih]
    by_cases he : is_truthy_err x.2.err
    · simp [varrer_step, he, keepMatch, List.filter_cons]
    · by_cases hf : x.2.found
      · simp [varrer_step, he, hf, keepMatch, List.filter_cons]
      · simp [varrer_step, he, hf, keepMatch, List.filter_cons]

theorem varrer_foldl_errors (l : List (String × MatchResult))
    (acc : List String × List String × List (String × String)) :
    (l.foldl varrer_step acc).2.2
      = acc.2.2 ++ (l.filter keepErr).map (fun x => (x.1, x.2.err.getD "")) := by
  induction l generalizing acc with
  | nil => simp
  | cons x l ih =>
    rw [List.foldl_cons, ih]
    by_cases he : is_truthy_err x.2.err
    · simp [varrer_step, he, keepErr, List.filter_cons]
    · by_cases hf : x.2.found
      · simp [varrer_step, he, hf, keepErr, List.filter_cons]
      · simp [varrer_step, he, hf, keepErr, List.filter_cons]

theorem varrer_foldl_cnpjs_mem (l : List (String × MatchResult))
    (acc : List String × List String × List (String × String)) (c : String) :
    c ∈ (l.foldl varrer_step acc).1
      ↔ c ∈ acc.1 ∨ ∃ x ∈ l, keepMatch x = true ∧ c ∈ x.2.cnpjs := by
  induction l generalizing acc with
  | nil => simp
  | cons x l ih =>
    rw [List.foldl_cons, ih]
    by_cases he : is_truthy_err x.2.err
    · simp only [varrer_step, he, if_true, keepMatch]
      simp [he]
    · by_cases hf : x.2.found
      · simp only [varrer_step, he, hf, keepMatch]
        simp [he, hf, mem_setUnion, or_assoc]
      · simp only [varrer_step, he, hf, keepMatch]
        simp [he, hf]

theorem varrer_foldl_nodup (l : List (String × MatchResult))
    (acc : List String × List String × List (String × String))
    (h : acc.1.Nodup) : (l.foldl varrer_step acc).1.Nodup := by
  refine foldl_inv
    (fun (a : List String × List String × List (String × String)) => a.1.Nodup)
    _ _ _ h ?_
  intro a x ha
  unfold varrer_step
  split
  · exact ha
  · split
    · exact nodup_setUnion _ ha
    · exact ha

theorem final_cnpj_table_sorted (cn : List String) :
    List.Sorted strle (final_cnpj_table cn) :=
  List.sorted_insertionSort strle _

theorem mem_final_cnpj_table {cn : List String} {c : String} :
    c ∈ final_cnpj_table cn ↔ c ∈ cn ∧ c ≠ "" := by
  unfold final_cnpj_table
  rw [(List.perm_insertionSort strle _).mem_iff, List.mem_filter]
  simp

theorem final_cnpj_table_nodup {cn : List String} (h : cn.Nodup) :
    (final_cnpj_table cn).Nodup :=
  ((List.perm_insertionSort strle _).nodup_iff).mpr (h.filter _)

theorem final_cnpj_table_ext {cn₁ cn₂ : List String}
    (h₁ : cn₁.Nodup) (h₂ : cn₂.Nodup) (hmem : ∀ c, c ∈ cn₁ ↔ c ∈ cn₂) :
    final_cnpj_table cn₁ = final_cnpj_table cn₂ := by
  refine List.eq_of_perm_of_sorted ?_ (final_cnpj_table_sorted cn₁) (final_cnpj_table_sorted cn₂)
  rw [List.perm_ext_iff_of_nodup (final_cnpj_table_nodup h₁) (final_cnpj_table_nodup h₂)]
  intro c
  rw [mem_final_cnpj_table, mem_final_cnpj_table, hmem c]

/-! ### Claim C1: determinism under worker completion order -/

/-- C1 counterexample: the merge loop appends match filenames in worker
completion order and the match table is never sorted, so two completion
orders of the same per-file results give different match tables. -/
theorem C1_match_table_order_counterexample :
    (([("a.csv", ⟨[], true, none⟩), ("b.csv", ⟨[], true, none⟩)] :
        List (String × MatchResult)).Perm
      [("b.csv", ⟨[], true, none⟩), ("a.csv", ⟨[], true, none⟩)]) ∧
    (varrer_merge [("a.csv", ⟨[], true, none⟩), ("b.csv", ⟨[], true, none⟩)]).2.1
      ≠ (varrer_merge [("b.csv", ⟨[], true, none⟩), ("a.csv", ⟨[], true, none⟩)]).2.1 := by
  constructor
  · exact List.Perm.swap _ _ _
  · decide

/-- C1 (amended): for any two completion orders of the same per-file
results, the merged ID set has the same members, the final sorted ID
table (line 287) is identical, and the match table and error table hold
the same rows up to order (equivalently, whether any match occurred is
the same); the match and error tables themselves follow completion
order and are not sorted. -/
theorem C1_completion_order_determinism (l₁ l₂ : List (String × MatchResult))
    (hperm : l₁.Perm l₂) :
    (∀ c, c ∈ (varrer_merge l₁).1 ↔ c ∈ (varrer_merge l₂).1) ∧
    final_cnpj_table (varrer_merge l₁).1 = final_cnpj_table (varrer_merge l₂).1 ∧
    ((varrer_merge l₁).2.1).Perm ((varrer_merge l₂).2.1) ∧
    ((varrer_merge l₁).2.2).Perm ((varrer_merge l₂).2.2) ∧
    ((varrer_merge l₁).2.1 = [] ↔ (varrer_merge l₂).2.1 = []) := by
  have hmem : ∀ c, c ∈ (varrer_merge l₁).1 ↔ c ∈ (varrer_merge l₂).1 := by
    intro c
    unfold varrer_merge
    rw [varrer_foldl_cnpjs_mem, varrer_foldl_cnpjs_mem]
    simp only [List.not_mem_nil, false_or]
    constructor
    · rintro ⟨x, hx, hk, hc⟩
      exact ⟨x, hperm.subset hx, hk, hc⟩
    · rintro ⟨x, hx, hk, hc⟩
      exact ⟨x, hperm.symm.subset hx, hk, hc⟩
  have hmt : ((varrer_merge l₁).2.1).Perm ((varrer_merge l₂).2.1) := by
    unfold varrer_merge
    rw [varrer_foldl_matches, varrer_foldl_matches]
    simp only [List.nil_append]
    exact (hperm.filter keepMatch).map _
  have het : ((varrer_merge l₁).2.2).Perm ((varrer_merge l₂).2.2) := by
    unfold varrer_merge
    rw [varrer_foldl_errors, varrer_foldl_errors]
    simp only [List.nil_append]
    exact (hperm.filter keepErr).map _
  refine ⟨hmem, ?_, hmt, het, ?_⟩
  · exact final_cnpj_table_ext
      (varrer_foldl_nodup l₁ _ List.nodup_nil)
      (varrer_foldl_nodup l₂ _ List.nodup_nil) hmem
  · constructor
    · intro h
      rw [h] at hmt
      exact hmt.nil_eq.symm
    · intro h
      rw [h] at hmt
      exact hmt.symm.nil_eq.symm

theorem C1_completion_order_determinism_witness :
    final_cnpj_table
        (varrer_merge [("a.csv", ⟨["11"], true, none⟩), ("b.csv", ⟨["22"], true, none⟩)]).1
      = final_cnpj_table
        (varrer_merge [("b.csv", ⟨["22"], true, none⟩), ("a.csv", ⟨["11"], true, none⟩)]).1 :=
  (C1_completion_order_determinism _ _ (List.Perm.swap _ _ _)).2.1

/-! ### Claim C3: properties of the returned taxpayer-ID table -/

theorem varrer_um_mes_digits (files : List (String × FileInput)) (termo modo : String)
    (mw : Int) : ∀ c ∈ (_varrer_um_mes files termo modo mw).1, allDigits c = true := by
  unfold _varrer_um_mes varrer_merge
  intro c hc
  rw [varrer_foldl_cnpjs_mem] at hc
  rcases hc with h | ⟨x, hx, hk, hc⟩
  · simp at h
  · rcases List.mem_map.mp hx with ⟨p, hp, rfl⟩
    exact (processar_arquivo_inv p.2 termo modo).2.2 c hc

theorem varrer_um_mes_nodup (files : List (String × FileInput)) (termo modo : String)
    (mw : Int) : (_varrer_um_mes files termo modo mw).1.Nodup :=
  varrer_foldl_nodup _ _ List.nodup_nil

/-- C3: the taxpayer-ID table buscar_cnpjs returns is sorted ascending in
the Python string order, has no duplicates, and every entry is a
non-empty digit string. -/
theorem C3_id_table_properties (html : String) (fetch : String → List (String × FileInput))
    (ativo categoria : String) (mw ms : Int) (res : BuscaResult)
    (h : buscar_cnpjs html fetch ativo categoria mw ms = .ok res) :
    List.Sorted strle res.df_cnpjs ∧ res.df_cnpjs.Nodup ∧
    ∀ c ∈ res.df_cnpjs, c ≠ "" ∧ allDigits c = true := by
  unfold buscar_cnpjs at h
  obtain ⟨modo, hmodo, h⟩ := except_bind_ok h
  obtain ⟨⟨yyyymms, ultimo⟩, hsel, h⟩ := except_bind_ok h
  dsimp only at h
  injection h with h'
  subst h'
  have hinv :
      (yyyymms.foldl (fun acc yyyymm =>
        let r := _varrer_um_mes (fetch yyyymm) (pyStrip ativo) modo (clamp_workers mw)
        (setUnion acc.1 r.1,
         acc.2.1 ++ r.2.1.map (fun arq => (yyyymm, arq)),
         acc.2.2.1 ++ r.2.2.map (fun p => (yyyymm, p.1, p.2)),
         if r.2.1.isEmpty then acc.2.2.2 else setInsert acc.2.2.2 yyyymm))
        (([], [], [], []) : List String × List (String × String) ×
          List (String × String × String) × List String)).1.Nodup ∧
      ∀ c ∈ (yyyymms.foldl (fun acc yyyymm =>
        let r := _varrer_um_mes (fetch yyyymm) (pyStrip ativo) modo (clamp_workers mw)
        (setUnion acc.1 r.1,
         acc.2.1 ++ r.2.1.map (fun arq => (yyyymm, arq)),
         acc.2.2.1 ++ r.2.2.map (fun p => (yyyymm, p.1, p.2)),
         if r.2.1.isEmpty then acc.2.2.2 else setInsert acc.2.2.2 yyyymm))
        (([], [], [], []) : List String × List (String × String) ×
          List (String × String × String) × List String)).1, allDigits c = true := by
    refine foldl_inv
      (fun (acc : List String × List (String × String) ×
          List (String × String × String) × List String) =>
        acc.1.Nodup ∧ ∀ c ∈ acc.1, allDigits c = true)
      _ _ _ ⟨List.nodup_nil, by simp⟩ ?_
    intro acc y hP
    dsimp only
    refine ⟨nodup_setUnion _ hP.1, ?_⟩
    intro c hc
    rcases mem_setUnion.mp hc with hold | hnew
    · exact hP.2 c hold
    · exact varrer_um_mes_digits _ _ _ _ c hnew
  refine ⟨final_cnpj_table_sorted _, final_cnpj_table_nodup hinv.1, ?_⟩
  intro c hc
  rcases mem_final_cnpj_table.mp hc with ⟨hm, hne⟩
  exact ⟨hne, hinv.2 c hm⟩

theorem C3_id_table_properties_witness :
    List.Sorted strle (BuscaResult.mk "202401" [] [] [] []).df_cnpjs ∧
    (BuscaResult.mk "202401" [] [] [] []).df_cnpjs.Nodup ∧
    ∀ c ∈ (BuscaResult.mk "202401" [] [] [] []).df_cnpjs, c ≠ "" ∧ allDigits c = true :=
  C3_id_table_properties "cda_fi_202401.zip" (fun _ => []) "BRX" "CREDITO_PRIVADO" 2 1
    ⟨"202401", [], [], [], []⟩ rfl

/-! ### Claim C10: selecting all available periods -/

theorem listar_ok_struct {html : String} {l : List String}
    (hl : listar_zips_disponiveis html = .ok l) :
    l = (List.insertionSort strle (findZips html.data.length html.data).dedup).reverse ∧
    findZips html.data.length html.data ≠ [] := by
  unfold listar_zips_disponiveis at hl
  dsimp only at hl
  split at hl
  · exact absurd hl (by simp)
  · rename_i hz
    injection hl with hl'
    refine ⟨hl'.symm, ?_⟩
    intro h0
    exact hz (List.isEmpty_iff.mpr h0)

/-- C10: when the clamped period count is at least the number of distinct
available periods, the selection step succeeds, selects exactly the full
available list, and fixes as last period the lexicographically smallest
available period, before any archive is fetched. -/
theorem C10_all_available_periods (html : String) (m : Int) (l : List String)
    (hl : listar_zips_disponiveis html = .ok l)
    (hm : (l.length : Int) ≤ clamp_meses m) :
    ∃ ultimo, select_periods html m = .ok (l, ultimo) ∧ ultimo ∈ l ∧
      ∀ y ∈ l, strle ultimo y := by
  obtain ⟨hstruct, hz⟩ := listar_ok_struct hl
  have hd : (findZips html.data.length html.data).dedup ≠ [] := by
    simpa [List.dedup_eq_nil] using hz
  have hane : List.insertionSort strle (findZips html.data.length html.data).dedup ≠ [] := by
    intro h0
    have hlen := (List.perm_insertionSort strle
      (findZips html.data.length html.data).dedup).length_eq
    rw [h0] at hlen
    exact hd (List.length_eq_zero.mp hlen.symm)
  obtain ⟨u, rest, hcons⟩ :
      ∃ u rest, List.insertionSort strle (findZips html.data.length html.data).dedup
        = u :: rest := by
    cases hc : List.insertionSort strle (findZips html.data.length html.data).dedup with
    | nil => exact absurd hc hane
    | cons a t => exact ⟨a, t, rfl⟩
  have hsorted := List.sorted_insertionSort strle (findZips html.data.length html.data).dedup
  rw [hcons] at hsorted
  have hmin : ∀ y ∈ l, strle u y := by
    intro y hy
    rw [hstruct, List.mem_reverse, hcons] at hy
    rcases List.mem_cons.mp hy with rfl | hy
    · exact lexLe_refl _
    · exact (List.sorted_cons.mp hsorted).1 y hy
  have hmem : u ∈ l := by
    rw [hstruct, List.mem_reverse, hcons]
    exact List.mem_cons_self _ _
  have hgl : l.getLast? = some u := by
    rw [hstruct, List.getLast?_reverse, hcons]
    rfl
  have htake : l.take (clamp_meses m).toNat = l := by
    refine List.take_of_length_le ?_
    have h1 : (1 : Int) ≤ clamp_meses m := le_max_left _ _
    omega
  refine ⟨u, ?_, hmem, hmin⟩
  unfold select_periods
  rw [hl]
  dsimp only
  rw [htake, hgl]

theorem C10_all_available_periods_witness :
    select_periods "cda_fi_202401.zipcda_fi_202312.zip" 100
      = .ok (["202401", "202312"], "202312") ∧
    ("202312" : String) ∈ ["202401", "202312"] ∧
    ∀ y ∈ (["202401", "202312"] : List String), strle "202312" y := by
  obtain ⟨u, hsel, hmem, hmin⟩ :=
    C10_all_available_periods "cda_fi_202401.zipcda_fi_202312.zip" 100
      ["202401", "202312"] rfl (by decide)
  have hcomp : select_periods "cda_fi_202401.zipcda_fi_202312.zip" 100
      = .ok (["202401", "202312"], "202312") := rfl
  rw [hcomp] at hsel
  injection hsel with h'
  have hu : "202312" = u := congrArg Prod.snd h'
  subst hu
  exact ⟨hcomp, hmem, hmin⟩
